import Mathlib

/-!
Verification of the ocil local OCI content store: a shallow embedding of the
blob store (`Layout`, from pkg/store) and the content store (`OCI`, the
resolver/fetcher/pusher implementation), with the filesystem modelled as an
association list from paths to file contents.  Machine state is passed
explicitly; Go's multiple return values become structures carrying the final
state plus an optional error, mirroring that Go mutates the receiver in place
even on error paths.
-/

namespace Ocil

abbrev Bytes := List Nat

abbrev FPath := List String

/-- Association-list lookup keyed by decidable equality (models Go map reads
and filesystem path lookup). -/
def alookup {α β : Type} [DecidableEq α] (k : α) : List (α × β) → Option β
  | [] => none
  | (k1, v) :: rest => if k1 = k then some v else alookup k rest

/-- Association-list update: replaces the first binding of the key, appends a
fresh binding otherwise (models Go map writes and file creation/overwrite). -/
def assocSet {α β : Type} [DecidableEq α] (l : List (α × β)) (k : α) (v : β) :
    List (α × β) :=
  match l with
  | [] => [(k, v)]
  | (k1, v1) :: rest => if k1 = k then (k, v) :: rest else (k1, v1) :: assocSet rest k v

def keysOf {α β : Type} (l : List (α × β)) : List α := l.map Prod.fst

/-- A digest: hash algorithm plus hex text (go-digest's `digest.Digest`). -/
structure Digest where
  algorithm : String
  hex : String
deriving DecidableEq, Repr

/-- Executable stand-in for hex-encoding the SHA-256 hash: an injective
rendering of the bytes.  Only injectivity and determinism matter here. -/
def hexOfBytes (data : Bytes) : String :=
  String.intercalate "." (data.map toString)

/-- digest.FromBytes. -/
def digestFromBytes (data : Bytes) : Digest :=
  { algorithm := "sha256", hex := hexOfBytes data }

/-- digest.Digest.String(): "alg:hex". -/
def Digest.str (d : Digest) : String := d.algorithm ++ ":" ++ d.hex

/-- ocispec.AnnotationRefName. -/
def AnnotationRefName : String := "org.opencontainers.image.ref.name"

/-- Go map read with zero value: absent keys read as "". -/
def annGet (m : List (String × String)) (k : String) : String :=
  match alookup k m with
  | some v => v
  | none => ""

def MediaTypeImageManifest : String := "application/vnd.oci.image.manifest.v1+json"

def MediaTypeImageIndex : String := "application/vnd.oci.image.index.v1+json"

def DockerManifestSchema2 : String := "application/vnd.docker.distribution.manifest.v2+json"

/-- ocispec.Descriptor. -/
structure Descriptor where
  mediaType : String
  digest : Digest
  size : Nat
  annotations : List (String × String)
  urls : List String
  platform : Option String
deriving DecidableEq, Repr

/-- The Go zero value `ocispec.Descriptor{}`. -/
def emptyDescriptor : Descriptor :=
  { mediaType := "", digest := ⟨"", ""⟩, size := 0, annotations := [], urls := [],
    platform := none }

/-- SaveIndex stamps each descriptor with its reference name before persisting:
`d.Annotations[ocispec.AnnotationRefName] = n`. -/
def stampName (d : Descriptor) (n : String) : Descriptor :=
  { d with annotations := assocSet d.annotations AnnotationRefName n }

def stampPair (e : String × Descriptor) : Descriptor := stampName e.2 e.1

/-- ocispec.Index: schema version plus manifest descriptor list. -/
structure IndexDoc where
  schemaVersion : Nat
  manifests : List Descriptor
deriving DecidableEq, Repr

/-- Stand-in for the nil `*ocispec.Index` held by a freshly constructed store. -/
def nilIndexDoc : IndexDoc := { schemaVersion := 0, manifests := [] }

/-- On-disk file contents: a raw blob, the decoded index document, or the
oci-layout marker.  Storing the index structurally models JSON round-tripping. -/
inductive FContent where
  | blob (data : Bytes)
  | indexDoc (i : IndexDoc)
  | layoutMarker
deriving DecidableEq, Repr

/-- The filesystem: files keyed by path, plus the set of paths on which a
create/write is injected to fail with an I/O error (models IOFailure). -/
structure Fs where
  files : List (FPath × FContent)
  failingCreate : List FPath
deriving DecidableEq, Repr

def Fs.read (fs : Fs) (p : FPath) : Option FContent := alookup p fs.files

/-- os.Stat succeeding = the path is present. -/
def Fs.statOk (fs : Fs) (p : FPath) : Bool := (fs.read p).isSome

def Fs.setFile (fs : Fs) (p : FPath) (c : FContent) : Fs :=
  { fs with files := assocSet fs.files p c }

/-- Whether root is a prefix of p (p is root itself or lies under it). -/
def pathUnder (root p : FPath) : Bool := decide (root = p.take root.length)

/-- os.RemoveAll: removes the path and everything beneath it; no error if the
path is absent. -/
def Fs.removeAll (fs : Fs) (p : FPath) : Fs :=
  { fs with files := fs.files.filter (fun e => !(pathUnder p e.1)) }

/-- The index file decodes successfully iff the path is absent or holds an
index document (a raw blob there would be a JSON decode failure). -/
def Fs.indexReadable (fs : Fs) (p : FPath) : Bool :=
  match fs.read p with
  | none => true
  | some (FContent.indexDoc _) => true
  | some _ => false

/-- Go error values distinguished by the model. -/
inductive GoErr where
  | invalidArgument
  | ioFailure
  | decodeFailure
  | digestMismatch
  | userErr (msg : String)
deriving DecidableEq, Repr

/-- sync.Map from reference name to descriptor, determinized to an
association list; Range iterates in entry order. -/
structure NameMap where
  entries : List (String × Descriptor)
deriving DecidableEq, Repr

def NameMap.store (m : NameMap) (k : String) (d : Descriptor) : NameMap :=
  ⟨assocSet m.entries k d⟩

def NameMap.load (m : NameMap) (k : String) : Option Descriptor :=
  alookup k m.entries

def NameMap.nodupKeys (m : NameMap) : Prop := (keysOf m.entries).Nodup

instance (m : NameMap) : Decidable m.nodupKeys :=
  inferInstanceAs (Decidable (keysOf m.entries).Nodup)

/-- The LoadIndex loop: every manifest carrying a nonempty reference-name
annotation is stored into the name map. -/
def mergeManifests (m : NameMap) (ds : List Descriptor) : NameMap :=
  ds.foldl
    (fun acc desc =>
      if annGet desc.annotations AnnotationRefName ≠ "" then
        acc.store (annGet desc.annotations AnnotationRefName) desc
      else acc)
    m

/-- consts.OCIImageIndexFile. -/
def OCIImageIndexFile : String := "index.json"

/-- The content.OCI store: root directory, decoded index document, name map. -/
structure OCI where
  root : FPath
  index : IndexDoc
  nameMap : NameMap
deriving DecidableEq, Repr

def OCI.path (o : OCI) (elem : List String) : FPath := o.root ++ elem

/-- NewOCI: fresh store with an empty name map and a nil index. -/
def NewOCI (root : FPath) : OCI :=
  { root := root, index := nilIndexDoc, nameMap := ⟨[]⟩ }

/-- ensureBlob: MkdirAll on blobs/alg (never failing in the model) and the
deterministic blob path; the blob file itself is never created here. -/
def OCI.ensureBlob (o : OCI) (alg hex : String) : FPath :=
  o.path ["blobs", alg, hex]

/-- LoadIndex: absent file initializes an empty schema-2 index (not an error);
otherwise the document replaces o.index and annotated manifests are merged
into the name map, which is never cleared. -/
def OCI.LoadIndex (o : OCI) (fs : Fs) : OCI × Option GoErr :=
  match fs.read (o.path [OCIImageIndexFile]) with
  | none =>
      ({ o with index := { schemaVersion := 2, manifests := [] } }, none)
  | some (FContent.indexDoc i) =>
      ({ o with index := i, nameMap := mergeManifests o.nameMap i.manifests }, none)
  | some _ => (o, some GoErr.decodeFailure)

/-- SaveIndex: serializes the name map into annotated descriptors, replaces
the index body, and writes the whole document; on a write failure the
in-memory index body is already replaced. -/
def OCI.SaveIndex (o : OCI) (fs : Fs) : OCI × Fs × Option GoErr :=
  let descs := o.nameMap.entries.map stampPair
  let o2 := { o with index := { o.index with manifests := descs } }
  let p := o.path [OCIImageIndexFile]
  if p ∈ fs.failingCreate then (o2, fs, some GoErr.ioFailure)
  else (o2, fs.setFile p (FContent.indexDoc o2.index), none)

/-- Result of writeStream: final filesystem, whether the reader was consumed,
and the error if any. -/
structure WriteRes where
  fs : Fs
  consumed : Bool
  err : Option GoErr
deriving DecidableEq, Repr

/-- writeStream: if the path already exists the write is a no-op and the
reader is not consumed; otherwise the file is created and the stream copied. -/
def OCI.writeStream (fs : Fs) (path : FPath) (data : Bytes) : WriteRes :=
  if fs.statOk path then { fs := fs, consumed := false, err := none }
  else if path ∈ fs.failingCreate then
    { fs := fs, consumed := false, err := some GoErr.ioFailure }
  else { fs := fs.setFile path (FContent.blob data), consumed := true, err := none }

/-- writeBytes: digest the data, ensure the blob path, stream the bytes. -/
def OCI.writeBytes (o : OCI) (fs : Fs) (data : Bytes) : WriteRes :=
  let d := digestFromBytes data
  OCI.writeStream fs (o.ensureBlob d.algorithm d.hex) data

/-- A v1.Layer: its digest (algorithm and hex) and compressed byte stream. -/
structure Layer where
  digestAlg : String
  digestHex : String
  compressed : Bytes
deriving DecidableEq, Repr

/-- writeLayer: ensure the blob path for the layer digest and stream it. -/
def OCI.writeLayer (o : OCI) (fs : Fs) (l : Layer) : WriteRes :=
  OCI.writeStream fs (o.ensureBlob l.digestAlg l.digestHex) l.compressed

/-- The errgroup of layer writers: every unit runs to completion and the
first error (in dispatch order) is reported by Wait. -/
def OCI.writeLayers (o : OCI) (fs : Fs) (ls : List Layer) : Fs × Option GoErr :=
  ls.foldl
    (fun acc l =>
      let r := OCI.writeLayer o acc.1 l
      (r.fs, acc.2 <|> r.err))
    (fs, none)

/-- A logical artifact: layers, raw config bytes, and the manifest (media type
plus its marshalled bytes). -/
structure Artifact where
  layers : List Layer
  rawConfig : Bytes
  manifestMediaType : String
  manifestBytes : Bytes
deriving DecidableEq, Repr

/-- The root descriptor both ingestion paths build for the manifest: media
type from the manifest, digest and size of the marshalled manifest bytes, and
the reference-name annotation. -/
def rootDesc (a : Artifact) (reference : String) : Descriptor :=
  { mediaType := a.manifestMediaType
    digest := digestFromBytes a.manifestBytes
    size := a.manifestBytes.length
    annotations := [(AnnotationRefName, reference)]
    urls := []
    platform := none }

/-- Result of Add: the returned descriptor, the mutated store, the final
filesystem, and the error if any. -/
structure AddRes where
  desc : Descriptor
  store : OCI
  fs : Fs
  err : Option GoErr
deriving DecidableEq, Repr

/-- OCI.Add: write layer blobs concurrently, then config, then manifest; build
the root descriptor, store it under the reference, reload the persisted index
into the name map, and save.  All paths return the zero descriptor, as the
source does. -/
def OCI.Add (o : OCI) (fs : Fs) (a : Artifact) (reference : String) : AddRes :=
  match OCI.writeLayers o fs a.layers with
  | (fs1, some e) => { desc := emptyDescriptor, store := o, fs := fs1, err := some e }
  | (fs1, none) =>
    let rc := OCI.writeBytes o fs1 a.rawConfig
    match rc.err with
    | some e => { desc := emptyDescriptor, store := o, fs := rc.fs, err := some e }
    | none =>
      let mdata := a.manifestBytes
      let rm := OCI.writeBytes o rc.fs mdata
      match rm.err with
      | some e => { desc := emptyDescriptor, store := o, fs := rm.fs, err := some e }
      | none =>
        let midx : Descriptor := rootDesc a reference
        let o1 := { o with nameMap := o.nameMap.store reference midx }
        match o1.LoadIndex rm.fs with
        | (o2, some e) =>
            { desc := emptyDescriptor, store := o2, fs := rm.fs, err := some e }
        | (o2, none) =>
          match o2.SaveIndex rm.fs with
          | (o3, fs3, e) => { desc := emptyDescriptor, store := o3, fs := fs3, err := e }

/-- Result of Resolve: returned name, descriptor, mutated store, error. -/
structure ResolveRes where
  name : String
  desc : Descriptor
  store : OCI
  err : Option GoErr
deriving DecidableEq, Repr

/-- OCI.Resolve: load the index, look the reference up in the name map; on a
miss the nil named error is returned (not a NotFound error). -/
def OCI.Resolve (o : OCI) (fs : Fs) (ref : String) : ResolveRes :=
  match o.LoadIndex fs with
  | (o1, some e) => { name := "", desc := emptyDescriptor, store := o1, err := some e }
  | (o1, none) =>
    match o1.nameMap.load ref with
    | none => { name := "", desc := emptyDescriptor, store := o1, err := none }
    | some d => { name := ref, desc := d, store := o1, err := none }

/-- Result of Fetcher: whether a fetcher handle (the store itself) was
returned, the mutated store, and the error. -/
structure FetcherRes where
  found : Bool
  store : OCI
  err : Option GoErr
deriving DecidableEq, Repr

/-- OCI.Fetcher: load the index and check membership; on a miss both results
are nil. -/
def OCI.Fetcher (o : OCI) (fs : Fs) (ref : String) : FetcherRes :=
  match o.LoadIndex fs with
  | (o1, some e) => { found := false, store := o1, err := some e }
  | (o1, none) =>
    match o1.nameMap.load ref with
    | none => { found := false, store := o1, err := none }
    | some _ => { found := true, store := o1, err := none }

/-- sync.Map.Range with the Walk callback: iterates entries in order, stopping
after the first visit on which the visitor returns an error; yields the list
of visited pairs. -/
def rangeVisits (entries : List (String × Descriptor))
    (fn : String → Descriptor → Option GoErr) : List (String × Descriptor) :=
  match entries with
  | [] => []
  | e :: rest =>
    match fn e.1 e.2 with
    | some _ => [e]
    | none => e :: rangeVisits rest fn

/-- Result of Walk: mutated store, visited pairs, returned error. -/
structure WalkRes where
  store : OCI
  visited : List (String × Descriptor)
  err : Option GoErr
deriving DecidableEq, Repr

/-- OCI.Walk: load the index and Range the name map; a visitor error stops the
iteration but Walk itself returns nil. -/
def OCI.Walk (o : OCI) (fs : Fs) (fn : String → Descriptor → Option GoErr) : WalkRes :=
  match o.LoadIndex fs with
  | (o1, some e) => { store := o1, visited := [], err := some e }
  | (o1, none) =>
      { store := o1, visited := rangeVisits o1.nameMap.entries fn, err := none }

/-- strings.SplitN(ref, "@", 2): base reference and optional expected digest. -/
def splitRefAt (ref : String) : String × String :=
  match ref.splitOn "@" with
  | [] => ("", "")
  | [b] => (b, "")
  | b :: rest => (b, String.intercalate "@" rest)

/-- The push session: base reference and expected root digest string. -/
structure OciPusher where
  ref : String
  digest : String
deriving DecidableEq, Repr

/-- Result of Pusher: the session if any, the mutated store, the error. -/
structure PusherRes where
  pusher : Option OciPusher
  store : OCI
  err : Option GoErr
deriving DecidableEq, Repr

/-- OCI.Pusher: load the index and split the composite reference. -/
def OCI.Pusher (o : OCI) (fs : Fs) (ref : String) : PusherRes :=
  match o.LoadIndex fs with
  | (o1, some e) => { pusher := none, store := o1, err := some e }
  | (o1, none) =>
    let parts := splitRefAt ref
    { pusher := some { ref := parts.1, digest := parts.2 }, store := o1, err := none }

/-- The content writer Push returns: either a discarding writer (blob already
present) or a fresh file writer, each validating against an expected digest. -/
inductive CWriter where
  | discard (expected : Digest)
  | fileW (path : FPath) (expected : Digest)
deriving DecidableEq, Repr

/-- Modelled from the spec: oras-go's NewIoContentWriter (external library,
not in the source tree) — the discarding writer acknowledges writes without
letting any byte reach disk, and Commit validates that the digest of the
acknowledged writes matches the expected digest; the file writer streams the
written bytes to its path under the same validation. -/
def CWriter.commit (w : CWriter) (fs : Fs) (written : Bytes) : Fs × Option GoErr :=
  match w with
  | CWriter.discard expected =>
      (fs, if digestFromBytes written = expected then none else some GoErr.digestMismatch)
  | CWriter.fileW path expected =>
      if digestFromBytes written = expected then
        (fs.setFile path (FContent.blob written), none)
      else (fs, some GoErr.digestMismatch)

/-- The media types recognized by Push's root-manifest switch. -/
def isManifestMedia (mt : String) : Bool :=
  mt == MediaTypeImageManifest || mt == MediaTypeImageIndex || mt == DockerManifestSchema2

/-- Result of Push: the returned writer if any, mutated store, filesystem,
error. -/
structure PushRes where
  writer : Option CWriter
  store : OCI
  fs : Fs
  err : Option GoErr
deriving DecidableEq, Repr

/-- The root-recognition prefix of Push: for a manifest/index media type whose
digest equals the session's expected root digest, load the index, register
base-reference to descriptor, and save. -/
def OciPusher.pushStep1 (p : OciPusher) (o : OCI) (fs : Fs) (d : Descriptor) :
    OCI × Fs × Option GoErr :=
  if isManifestMedia d.mediaType = true ∧ p.digest ≠ "" ∧ p.digest = d.digest.str then
    match o.LoadIndex fs with
    | (o1, some e) => (o1, fs, some e)
    | (o1, none) =>
      let o2 := { o1 with nameMap := o1.nameMap.store p.ref d }
      o2.SaveIndex fs
  else (o, fs, none)

/-- ociPusher.Push: root recognition first, then ensure the blob path; an
already-present file yields the discarding writer, otherwise a fresh file is
created and a validating writer returned. -/
def OciPusher.Push (p : OciPusher) (o : OCI) (fs : Fs) (d : Descriptor) : PushRes :=
  match p.pushStep1 o fs d with
  | (o1, fs1, some e) => { writer := none, store := o1, fs := fs1, err := some e }
  | (o1, fs1, none) =>
    let blobPath := o1.ensureBlob d.digest.algorithm d.digest.hex
    if fs1.statOk blobPath then
      { writer := some (CWriter.discard d.digest), store := o1, fs := fs1, err := none }
    else if blobPath ∈ fs1.failingCreate then
      { writer := none, store := o1, fs := fs1, err := some GoErr.ioFailure }
    else
      { writer := some (CWriter.fileW blobPath d.digest), store := o1,
        fs := fs1.setFile blobPath (FContent.blob []), err := none }

/-- The pkg/store Layout: root directory plus the wrapped content store (the
optional layer cache is not involved in any claim and is omitted, matching the
nil-cache configuration). -/
structure Layout where
  root : FPath
  store : OCI
deriving DecidableEq, Repr

/-- NewLayout on a fresh store: NewOCI followed by LoadIndex. -/
def NewLayout (rootdir : FPath) (fs : Fs) : Option Layout :=
  match (NewOCI rootdir).LoadIndex fs with
  | (o1, none) => some { root := rootdir, store := o1 }
  | (_, some _) => none

/-- What Layout.writerAt hands back: the Go (file, err) pair.  `nilFile` is
the (nil, nil) return taken when the blob path already exists. -/
inductive WriterAtRes where
  | errored (e : GoErr)
  | nilFile
  | created (p : FPath)
deriving DecidableEq, Repr

/-- Layout.writerAt: MkdirAll the algorithm directory, then skip entirely —
returning a nil file handle — if something exists at the blob path, else
create the (empty) file. -/
def Layout.writerAt (l : Layout) (fs : Fs) (alg hex : String) : Fs × WriterAtRes :=
  let blobPath := l.root ++ ["blobs", alg, hex]
  if fs.statOk blobPath then (fs, WriterAtRes.nilFile)
  else if blobPath ∈ fs.failingCreate then (fs, WriterAtRes.errored GoErr.ioFailure)
  else (fs.setFile blobPath (FContent.blob []), WriterAtRes.created blobPath)

/-- Layout.writeBytes: digest the data and write through writerAt.  When
writerAt returns the nil file handle (blob already present), the subsequent
w.Write on the nil *os.File yields os.ErrInvalid, which writeBytes returns. -/
def Layout.writeBytes (l : Layout) (fs : Fs) (data : Bytes) : Fs × Option GoErr :=
  let d := digestFromBytes data
  match l.writerAt fs d.algorithm d.hex with
  | (fs1, WriterAtRes.errored e) => (fs1, some e)
  | (fs1, WriterAtRes.nilFile) => (fs1, some GoErr.invalidArgument)
  | (fs1, WriterAtRes.created p) => (fs1.setFile p (FContent.blob data), none)

/-- A layer goroutine's outcome in AddOCI: success, error, or a crash — the
nil-file branch calls w.Stat() on the nil handle and dereferences the nil
FileInfo via s.Size(). -/
inductive LayerStepRes where
  | okFs (fs : Fs)
  | errFs (fs : Fs) (e : GoErr)
  | crashed
deriving DecidableEq, Repr

/-- One layer goroutine of Layout.AddOCI: writerAt, then the s.Size() check
(zero on the freshly created file, a nil dereference on the nil handle), then
the compressed stream is copied in. -/
def Layout.writeLayerStep (l : Layout) (fs : Fs) (lay : Layer) : LayerStepRes :=
  match l.writerAt fs lay.digestAlg lay.digestHex with
  | (fs1, WriterAtRes.errored e) => LayerStepRes.errFs fs1 e
  | (_, WriterAtRes.nilFile) => LayerStepRes.crashed
  | (fs1, WriterAtRes.created p) =>
      LayerStepRes.okFs (fs1.setFile p (FContent.blob lay.compressed))

/-- The errgroup of AddOCI layer goroutines, determinized to dispatch order:
all units run, the first error is kept, and any crash takes the process down
(`none`). -/
def Layout.writeLayersGo (l : Layout) (fs : Fs) (ls : List Layer) :
    Option (Fs × Option GoErr) :=
  ls.foldl
    (fun acc lay =>
      match acc with
      | none => none
      | some (fsAcc, e) =>
        match l.writeLayerStep fsAcc lay with
        | LayerStepRes.okFs fs1 => some (fs1, e)
        | LayerStepRes.errFs fs1 e1 => some (fs1, e <|> some e1)
        | LayerStepRes.crashed => none)
    (some (fs, none))

/-- Modelled from the spec: `content.OCI.AddIndex` (ocil pkg/content, absent
from the source tree) — register the root descriptor under its reference-name
annotation in the name map and persist the index (system overview §4.4 step 6). -/
def Layout.storeAddIndex (l : Layout) (fs : Fs) (d : Descriptor) :
    Layout × Fs × Option GoErr :=
  let name := annGet d.annotations AnnotationRefName
  let o1 := { l.store with nameMap := l.store.nameMap.store name d }
  match o1.SaveIndex fs with
  | (o2, fs2, e) => ({ l with store := o2 }, fs2, e)

/-- Outcome of Layout.AddOCI: the built root descriptor on success, an error,
or a process crash from a layer goroutine. -/
inductive AddOCIRes where
  | ok (d : Descriptor) (st : Layout) (fs : Fs)
  | err (e : GoErr) (st : Layout) (fs : Fs)
  | crashed
deriving DecidableEq, Repr

/-- Layout.AddOCI: write the manifest blob, then the config blob, then the
layer blobs concurrently; build the root descriptor annotated with the
reference and add it to the store index. -/
def Layout.AddOCI (l : Layout) (fs : Fs) (a : Artifact) (ref : String) : AddOCIRes :=
  let mdata := a.manifestBytes
  match l.writeBytes fs mdata with
  | (fs1, some e) => AddOCIRes.err e l fs1
  | (fs1, none) =>
    match l.writeBytes fs1 a.rawConfig with
    | (fs2, some e) => AddOCIRes.err e l fs2
    | (fs2, none) =>
      match l.writeLayersGo fs2 a.layers with
      | none => AddOCIRes.crashed
      | some (fs3, some e) => AddOCIRes.err e l fs3
      | some (fs3, none) =>
        let idx : Descriptor := rootDesc a ref
        match l.storeAddIndex fs3 idx with
        | (st1, fs4, some e) => AddOCIRes.err e st1 fs4
        | (st1, fs4, none) => AddOCIRes.ok idx st1 fs4

/-- Layout.Flush: RemoveAll on exactly blobs/, index.json, and the oci-layout
marker under the root. -/
def Layout.Flush (l : Layout) (fs : Fs) : Fs × Option GoErr :=
  let fs1 := fs.removeAll (l.root ++ ["blobs"])
  let fs2 := fs1.removeAll (l.root ++ [OCIImageIndexFile])
  let fs3 := fs2.removeAll (l.root ++ ["oci-layout"])
  (fs3, none)

/-- Events of an ingestion, for the ordering claims: blob writes, the
errgroup await, the name-map store, index load and index save. -/
inductive Ev where
  | writeLayerEv (l : Layer)
  | awaitLayersEv
  | writeConfigEv
  | writeManifestEv
  | storeNameEv
  | loadIndexEv
  | saveIndexEv
deriving DecidableEq, Repr

def layerEvs (a : Artifact) : List Ev := a.layers.map Ev.writeLayerEv

/-- The successful traces of OCI.Add: the concurrently dispatched layer writes
in any order, then the await, then config write, manifest write, name-map
store, index load, index save — following the statement order of the source. -/
def OCI.addTraces (a : Artifact) (t : List Ev) : Prop :=
  ∃ p, List.Perm p (layerEvs a) ∧
    t = p ++ [Ev.awaitLayersEv, Ev.writeConfigEv, Ev.writeManifestEv,
              Ev.storeNameEv, Ev.loadIndexEv, Ev.saveIndexEv]

/-- The successful traces of Layout.AddOCI: manifest write, config write, the
layer writes in any order, the await, then the index registration (store and
save through AddIndex). -/
def Layout.addOCITraces (a : Artifact) (t : List Ev) : Prop :=
  ∃ p, List.Perm p (layerEvs a) ∧
    t = Ev.writeManifestEv :: Ev.writeConfigEv ::
        (p ++ [Ev.awaitLayersEv, Ev.storeNameEv, Ev.saveIndexEv])

/-- Position of the first occurrence of an event in a trace. -/
def evIdx (e : Ev) : List Ev → Nat
  | [] => 0
  | x :: xs => if x = e then 0 else evIdx e xs + 1

/-! ### Concrete fixtures used by the claim theorems and witnesses -/

def fsEmpty : Fs := { files := [], failingCreate := [] }

def addOCIIsOk : AddOCIRes → Bool
  | AddOCIRes.ok _ _ _ => true
  | _ => false

def addOCIErr : AddOCIRes → Option GoErr
  | AddOCIRes.err e _ _ => some e
  | _ => none

def c1Artifact : Artifact :=
  { layers := [⟨"sha256", "lay1", [7, 7]⟩], rawConfig := [1, 2],
    manifestMediaType := MediaTypeImageManifest, manifestBytes := [9] }

def c1Layout : Layout := { root := ["r"], store := NewOCI ["r"] }

def c1First : AddOCIRes := c1Layout.AddOCI fsEmpty c1Artifact "ref:v1"

def c1Second : AddOCIRes :=
  match c1First with
  | AddOCIRes.ok _ st fs => st.AddOCI fs c1Artifact "ref:v1"
  | r => r

def c2Art1 : Artifact :=
  { layers := [], rawConfig := [1], manifestMediaType := MediaTypeImageManifest,
    manifestBytes := [2] }

def c2Art2 : Artifact :=
  { layers := [], rawConfig := [1], manifestMediaType := MediaTypeImageManifest,
    manifestBytes := [3] }

def c2R1 : AddRes := (NewOCI ["r"]).Add fsEmpty c2Art1 "hello/world:v1"

def c2R2 : AddRes := c2R1.store.Add c2R1.fs c2Art2 "hello/world:v1"

def c2RR : ResolveRes := c2R2.store.Resolve c2R2.fs "hello/world:v1"

def c3RR : ResolveRes := (NewOCI ["r"]).Resolve fsEmpty "missing"

def c3FR : FetcherRes := (NewOCI ["r"]).Fetcher fsEmpty "missing"

def c4DescA : Descriptor :=
  { mediaType := MediaTypeImageManifest, digest := digestFromBytes [2], size := 1,
    annotations := [(AnnotationRefName, "a")], urls := [], platform := none }

def c4DescB : Descriptor :=
  { mediaType := MediaTypeImageManifest, digest := digestFromBytes [3], size := 1,
    annotations := [(AnnotationRefName, "b")], urls := [], platform := none }

def c4Store : OCI :=
  { root := ["r"], index := nilIndexDoc, nameMap := ⟨[("a", c4DescA), ("b", c4DescB)]⟩ }

def c4Visitor : String → Descriptor → Option GoErr :=
  fun _ _ => some (GoErr.userErr "boom")

def c4W : WalkRes := c4Store.Walk fsEmpty c4Visitor

def c5Desc : Descriptor :=
  { mediaType := MediaTypeImageManifest, digest := digestFromBytes [5], size := 1,
    annotations := [], urls := [], platform := none }

def c5Pusher : OciPusher :=
  { ref := "hello/world:v1", digest := (digestFromBytes [5]).str }

def c5Fs : Fs :=
  { files := [], failingCreate := [["r", "blobs", "sha256", hexOfBytes [5]]] }

def c5R : PushRes := c5Pusher.Push (NewOCI ["r"]) c5Fs c5Desc

def c7Art : Artifact :=
  { layers := [], rawConfig := [4], manifestMediaType := MediaTypeImageManifest,
    manifestBytes := [6] }

def c7R1 : AddRes := (NewOCI ["r"]).Add fsEmpty c7Art "name:v1"

def c7Layout : Layout := { root := ["r"], store := c7R1.store }

def c7FsAfter : Fs := (c7Layout.Flush c7R1.fs).1

def c7RR : ResolveRes := c7R1.store.Resolve c7FsAfter "name:v1"

def c8Layer : Layer := ⟨"sha256", "aa", [1]⟩

def c8Art : Artifact :=
  { layers := [c8Layer], rawConfig := [1],
    manifestMediaType := MediaTypeImageManifest, manifestBytes := [2] }

def c8Trace : List Ev :=
  [Ev.writeLayerEv c8Layer, Ev.awaitLayersEv, Ev.writeConfigEv, Ev.writeManifestEv,
   Ev.storeNameEv, Ev.loadIndexEv, Ev.saveIndexEv]

def c9Desc : Descriptor :=
  { mediaType := "application/octet-stream", digest := digestFromBytes [5], size := 1,
    annotations := [], urls := [], platform := none }

def c9Pusher : OciPusher := { ref := "w", digest := "" }

def c9Fs : Fs :=
  { files := [(["r", "blobs", "sha256", hexOfBytes [5]], FContent.blob [5])],
    failingCreate := [] }

def c10Plain : Descriptor :=
  { mediaType := MediaTypeImageManifest, digest := digestFromBytes [11], size := 1,
    annotations := [], urls := [], platform := none }

def c10DescN : Descriptor :=
  { mediaType := MediaTypeImageManifest, digest := digestFromBytes [12], size := 1,
    annotations := [], urls := [], platform := none }

def c10Store : OCI :=
  { root := ["r"], index := { schemaVersion := 2, manifests := [c10Plain] },
    nameMap := ⟨[("n", c10DescN)]⟩ }

def c6Desc : Descriptor :=
  { mediaType := MediaTypeImageManifest, digest := digestFromBytes [8], size := 1,
    annotations := [], urls := [], platform := none }

def c6Pusher : OciPusher := { ref := "w", digest := (digestFromBytes [8]).str }

def c6PusherNonroot : OciPusher := { ref := "w", digest := "" }

def c5aArt : Artifact :=
  { layers := [], rawConfig := [1], manifestMediaType := MediaTypeImageManifest,
    manifestBytes := [2] }

def c5aFs : Fs :=
  { files := [], failingCreate := [["r", "blobs", "sha256", hexOfBytes [1]]] }

def c5bDesc : Descriptor :=
  { mediaType := MediaTypeImageManifest, digest := digestFromBytes [13], size := 1,
    annotations := [], urls := [], platform := none }

def c5bPusher : OciPusher := { ref := "w2", digest := (digestFromBytes [13]).str }

def c7FrameFs : Fs :=
  { files := [(["other", "file"], FContent.blob [1]),
              (["r", "oci-layout"], FContent.layoutMarker)],
    failingCreate := [] }

def c7SameLayout : Layout := { root := ["r"], store := c4Store }

/-! ### Association-list and filesystem lemmas -/

theorem alookup_assocSet_self {α β : Type} [DecidableEq α] (l : List (α × β)) (k : α)
    (v : β) : alookup k (assocSet l k v) = some v := by
  induction l with
  | nil => simp [assocSet, alookup]
  | cons e rest ih =>
    obtain ⟨k1, v1⟩ := e
    by_cases h : k1 = k
    · simp [assocSet, h, alookup]
    · simp [assocSet, h, alookup, ih]

theorem alookup_assocSet_ne {α β : Type} [DecidableEq α] (l : List (α × β)) (k k1 : α)
    (v : β) (h : k1 ≠ k) : alookup k1 (assocSet l k v) = alookup k1 l := by
  induction l with
  | nil => simp [assocSet, alookup, Ne.symm h]
  | cons e rest ih =>
    obtain ⟨k2, v2⟩ := e
    by_cases h2 : k2 = k
    · subst h2
      simp [assocSet, alookup, Ne.symm h]
    · simp [assocSet, h2, alookup, ih]

theorem mem_assocSet_self {α β : Type} [DecidableEq α] (l : List (α × β)) (k : α)
    (v : β) : (k, v) ∈ assocSet l k v := by
  induction l with
  | nil => simp [assocSet]
  | cons e rest ih =>
    obtain ⟨k2, v2⟩ := e
    by_cases h2 : k2 = k
    · simp [assocSet, h2]
    · simp [assocSet, h2]
      right
      exact ih

theorem mem_keysOf_assocSet {α β : Type} [DecidableEq α] (l : List (α × β)) (k a : α)
    (v : β) (h : a ∈ keysOf (assocSet l k v)) : a = k ∨ a ∈ keysOf l := by
  induction l with
  | nil => simpa [assocSet, keysOf] using h
  | cons e rest ih =>
    obtain ⟨k2, v2⟩ := e
    by_cases h2 : k2 = k
    · subst h2
      simpa [assocSet, keysOf] using h
    · simp only [assocSet, if_neg h2, keysOf, List.map_cons, List.mem_cons] at h
      rcases h with h | h
      · right; simp [keysOf, h]
      · rcases ih h with h | h
        · exact Or.inl h
        · right; simp [keysOf] at h ⊢; exact Or.inr h

theorem nodup_keysOf_assocSet {α β : Type} [DecidableEq α] (l : List (α × β)) (k : α)
    (v : β) (h : (keysOf l).Nodup) : (keysOf (assocSet l k v)).Nodup := by
  induction l with
  | nil => simp [assocSet, keysOf]
  | cons e rest ih =>
    obtain ⟨k2, v2⟩ := e
    simp only [keysOf, List.map_cons, List.nodup_cons] at h
    by_cases h2 : k2 = k
    · subst h2
      simpa [assocSet, keysOf, List.nodup_cons] using h
    · have hrest := ih h.2
      simp only [assocSet, if_neg h2, keysOf, List.map_cons, List.nodup_cons]
      refine ⟨fun hmem => ?_, hrest⟩
      rcases mem_keysOf_assocSet rest k k2 v hmem with hh | hh
      · exact h2 hh
      · exact h.1 hh

theorem alookup_filter_keyTrue {β : Type} (f : FPath → Bool) (l : List (FPath × β))
    (q : FPath) (hq : f q = true) :
    alookup q (l.filter (fun e => f e.1)) = alookup q l := by
  induction l with
  | nil => simp
  | cons e rest ih =>
    obtain ⟨k, v⟩ := e
    by_cases hk : k = q
    · subst hk
      simp [List.filter_cons, hq, alookup]
    · by_cases hf : f k = true
      · simp [List.filter_cons, hf, alookup, hk, ih]
      · simp only [List.filter_cons]
        rw [if_neg (by simp [hf])]
        rw [ih]
        simp [alookup, hk]

theorem alookup_filter_keyFalse {β : Type} (f : FPath → Bool) (l : List (FPath × β))
    (q : FPath) (hq : f q = false) :
    alookup q (l.filter (fun e => f e.1)) = none := by
  induction l with
  | nil => simp [alookup]
  | cons e rest ih =>
    obtain ⟨k, v⟩ := e
    by_cases hk : k = q
    · subst hk
      simp [List.filter_cons, hq, ih]
    · by_cases hf : f k = true
      · simp [List.filter_cons, hf, alookup, hk, ih]
      · simp only [List.filter_cons]
        rw [if_neg (by simp [hf])]
        exact ih

theorem alookup_filter_none {β : Type} (f : FPath × β → Bool) (l : List (FPath × β))
    (q : FPath) (hq : alookup q l = none) : alookup q (l.filter f) = none := by
  induction l with
  | nil => simp [alookup]
  | cons e rest ih =>
    obtain ⟨k, v⟩ := e
    by_cases hk : k = q
    · subst hk
      simp [alookup] at hq
    · simp only [alookup, if_neg hk] at hq
      by_cases hf : f (k, v) = true
      · simp [List.filter_cons, hf, alookup, hk, ih hq]
      · simp only [List.filter_cons]
        rw [if_neg (by simp [hf])]
        exact ih hq

/-! ### Name-map, annotation and merge lemmas -/

theorem NameMap.load_store_self (m : NameMap) (k : String) (d : Descriptor) :
    (m.store k d).load k = some d :=
  alookup_assocSet_self m.entries k d

theorem NameMap.load_store_ne (m : NameMap) (k k1 : String) (d : Descriptor)
    (h : k1 ≠ k) : (m.store k d).load k1 = m.load k1 :=
  alookup_assocSet_ne m.entries k k1 d h

theorem NameMap.mem_store_self (m : NameMap) (k : String) (d : Descriptor) :
    (k, d) ∈ (m.store k d).entries :=
  mem_assocSet_self m.entries k d

theorem NameMap.nodupKeys_store (m : NameMap) (k : String) (d : Descriptor)
    (h : m.nodupKeys) : (m.store k d).nodupKeys :=
  nodup_keysOf_assocSet m.entries k d h

theorem lookup_stampName (d : Descriptor) (n : String) :
    alookup AnnotationRefName (stampName d n).annotations = some n :=
  alookup_assocSet_self d.annotations AnnotationRefName n

theorem annGet_stampName (d : Descriptor) (n : String) :
    annGet (stampName d n).annotations AnnotationRefName = n := by
  simp [annGet, lookup_stampName]

theorem stampName_digest (d : Descriptor) (n : String) :
    (stampName d n).digest = d.digest := rfl

theorem mergeManifests_cons (m : NameMap) (dd : Descriptor) (rest : List Descriptor) :
    mergeManifests m (dd :: rest) =
      mergeManifests
        (if annGet dd.annotations AnnotationRefName ≠ "" then
           m.store (annGet dd.annotations AnnotationRefName) dd
         else m) rest := rfl

theorem mergeManifests_load_of_forall_ne (ds : List Descriptor) (m : NameMap)
    (r : String) (h : ∀ dd ∈ ds, annGet dd.annotations AnnotationRefName ≠ r) :
    (mergeManifests m ds).load r = m.load r := by
  induction ds generalizing m with
  | nil => rfl
  | cons dd rest ih =>
    have hr := h dd (by simp)
    rw [mergeManifests_cons, ih _ (fun x hx => h x (by simp [hx]))]
    by_cases hn : annGet dd.annotations AnnotationRefName ≠ ""
    · rw [if_pos hn]
      exact NameMap.load_store_ne _ _ _ _ (Ne.symm hr)
    · rw [if_neg hn]

theorem mergeManifests_nodupKeys (ds : List Descriptor) (m : NameMap)
    (h : m.nodupKeys) : (mergeManifests m ds).nodupKeys := by
  induction ds generalizing m with
  | nil => exact h
  | cons dd rest ih =>
    rw [mergeManifests_cons]
    by_cases hn : annGet dd.annotations AnnotationRefName ≠ ""
    · rw [if_pos hn]
      exact ih _ (NameMap.nodupKeys_store _ _ _ h)
    · rw [if_neg hn]
      exact ih _ h

theorem merge_stamped_load (L : List (String × Descriptor)) (m0 : NameMap)
    (r : String) (d : Descriptor) (hnd : (keysOf L).Nodup) (hmem : (r, d) ∈ L)
    (hr : r ≠ "") :
    (mergeManifests m0 (L.map stampPair)).load r = some (stampName d r) := by
  induction L generalizing m0 with
  | nil => simp at hmem
  | cons e rest ih =>
    obtain ⟨n, dd⟩ := e
    simp only [keysOf, List.map_cons, List.nodup_cons] at hnd
    rw [List.map_cons, mergeManifests_cons]
    have hstamp : annGet (stampPair (n, dd)).annotations AnnotationRefName = n := by
      simp only [stampPair]
      exact annGet_stampName dd n
    rcases List.mem_cons.mp hmem with he | he
    · injection he with h1 h2
      subst h1
      subst h2
      rw [hstamp, if_pos hr]
      rw [mergeManifests_load_of_forall_ne]
      · exact NameMap.load_store_self _ _ _
      · intro x hx
        rcases List.mem_map.mp hx with ⟨⟨n2, d2⟩, hn2, rfl⟩
        have : annGet (stampPair (n2, d2)).annotations AnnotationRefName = n2 := by
          simp only [stampPair]
          exact annGet_stampName d2 n2
        rw [this]
        intro hcon
        apply hnd.1
        rw [← hcon]
        exact List.mem_map_of_mem Prod.fst hn2
    · rw [hstamp]
      by_cases hn : n ≠ ""
      · rw [if_pos hn]
        exact ih _ hnd.2 he
      · rw [if_neg hn]
        exact ih _ hnd.2 he

/-! ### Path and filesystem frame lemmas -/

theorem append_ne_of_length_ne (root : FPath) (l1 l2 : List String)
    (h : l1.length ≠ l2.length) : root ++ l1 ≠ root ++ l2 := by
  intro hh
  apply h
  have := congrArg List.length hh
  simpa using this

theorem blobPath_ne_single (root : FPath) (a hx f : String) :
    root ++ ["blobs", a, hx] ≠ root ++ [f] :=
  append_ne_of_length_ne root _ _ (by simp)

theorem pathUnder_refl (p : FPath) : pathUnder p p = true := by
  unfold pathUnder
  rw [List.take_length]
  exact decide_eq_true rfl

theorem pathUnder_append_single (root : FPath) (x y : String) :
    pathUnder (root ++ [x]) (root ++ [y]) = (x == y) := by
  simp only [pathUnder]
  have hlen : (root ++ [x]).length = (root ++ [y]).length := by simp
  rw [hlen, List.take_length]
  by_cases h : x = y
  · subst h
    simp
  · have h1 : root ++ [x] ≠ root ++ [y] := by
      intro hh
      exact h (by simpa using List.append_cancel_left hh)
    rw [decide_eq_false h1]
    exact (beq_eq_false_iff_ne.mpr h).symm

theorem Fs.read_setFile_self (fs : Fs) (p : FPath) (c : FContent) :
    (fs.setFile p c).read p = some c :=
  alookup_assocSet_self fs.files p c

theorem Fs.read_setFile_ne (fs : Fs) (p q : FPath) (c : FContent) (h : q ≠ p) :
    (fs.setFile p c).read q = fs.read q :=
  alookup_assocSet_ne fs.files p q c h

theorem Fs.failing_setFile (fs : Fs) (p : FPath) (c : FContent) :
    (fs.setFile p c).failingCreate = fs.failingCreate := rfl

theorem writeStream_read_ne (fs : Fs) (path q : FPath) (data : Bytes) (h : q ≠ path) :
    (OCI.writeStream fs path data).fs.read q = fs.read q := by
  unfold OCI.writeStream
  split
  · rfl
  · split
    · rfl
    · exact Fs.read_setFile_ne fs path q _ h

theorem writeStream_failing (fs : Fs) (path : FPath) (data : Bytes) :
    (OCI.writeStream fs path data).fs.failingCreate = fs.failingCreate := by
  unfold OCI.writeStream
  split
  · rfl
  · split <;> rfl

theorem writeBytes_read_single (o : OCI) (fs : Fs) (data : Bytes) (f : String) :
    (o.writeBytes fs data).fs.read (o.path [f]) = fs.read (o.path [f]) := by
  unfold OCI.writeBytes
  exact writeStream_read_ne fs _ _ data
    (blobPath_ne_single o.root (digestFromBytes data).algorithm
      (digestFromBytes data).hex f).symm

theorem writeBytes_failing (o : OCI) (fs : Fs) (data : Bytes) :
    (o.writeBytes fs data).fs.failingCreate = fs.failingCreate :=
  writeStream_failing fs _ data

theorem writeLayer_read_single (o : OCI) (fs : Fs) (l : Layer) (f : String) :
    (o.writeLayer fs l).fs.read (o.path [f]) = fs.read (o.path [f]) := by
  unfold OCI.writeLayer
  exact writeStream_read_ne fs _ _ l.compressed
    (blobPath_ne_single o.root l.digestAlg l.digestHex f).symm

theorem writeLayer_failing (o : OCI) (fs : Fs) (l : Layer) :
    (o.writeLayer fs l).fs.failingCreate = fs.failingCreate :=
  writeStream_failing fs _ l.compressed

theorem writeLayers_foldl_read_single (o : OCI) (ls : List Layer) (f : String) :
    ∀ acc : Fs × Option GoErr,
      ((ls.foldl (fun acc l =>
          let r := OCI.writeLayer o acc.1 l
          (r.fs, acc.2 <|> r.err)) acc).1).read (o.path [f]) =
        acc.1.read (o.path [f]) := by
  induction ls with
  | nil => intro acc; rfl
  | cons l rest ih =>
    intro acc
    rw [List.foldl_cons, ih]
    exact writeLayer_read_single o acc.1 l f

theorem writeLayers_read_single (o : OCI) (fs : Fs) (ls : List Layer) (f : String) :
    (OCI.writeLayers o fs ls).1.read (o.path [f]) = fs.read (o.path [f]) :=
  writeLayers_foldl_read_single o ls f (fs, none)

theorem writeLayers_foldl_failing (o : OCI) (ls : List Layer) :
    ∀ acc : Fs × Option GoErr,
      ((ls.foldl (fun acc l =>
          let r := OCI.writeLayer o acc.1 l
          (r.fs, acc.2 <|> r.err)) acc).1).failingCreate = acc.1.failingCreate := by
  induction ls with
  | nil => intro acc; rfl
  | cons l rest ih =>
    intro acc
    rw [List.foldl_cons, ih]
    exact writeLayer_failing o acc.1 l

theorem writeLayers_failing (o : OCI) (fs : Fs) (ls : List Layer) :
    (OCI.writeLayers o fs ls).1.failingCreate = fs.failingCreate :=
  writeLayers_foldl_failing o ls (fs, none)

theorem indexReadable_eq_of_read (fs1 fs2 : Fs) (p : FPath)
    (h : fs1.read p = fs2.read p) : fs1.indexReadable p = fs2.indexReadable p := by
  unfold Fs.indexReadable
  rw [h]

/-! ### LoadIndex / SaveIndex equation lemmas -/

theorem LoadIndex_none (o : OCI) (fs : Fs)
    (h : fs.read (o.path [OCIImageIndexFile]) = none) :
    o.LoadIndex fs = ({ o with index := { schemaVersion := 2, manifests := [] } }, none) := by
  unfold OCI.LoadIndex
  rw [h]

theorem LoadIndex_indexDoc (o : OCI) (fs : Fs) (i : IndexDoc)
    (h : fs.read (o.path [OCIImageIndexFile]) = some (FContent.indexDoc i)) :
    o.LoadIndex fs =
      ({ o with index := i, nameMap := mergeManifests o.nameMap i.manifests }, none) := by
  unfold OCI.LoadIndex
  rw [h]

theorem LoadIndex_pair (o : OCI) (fs : Fs)
    (h : fs.indexReadable (o.path [OCIImageIndexFile]) = true) :
    o.LoadIndex fs = ((o.LoadIndex fs).1, none) := by
  unfold Fs.indexReadable at h
  unfold OCI.LoadIndex
  cases hr : fs.read (o.path [OCIImageIndexFile]) with
  | none => rfl
  | some c =>
    rw [hr] at h
    cases c with
    | blob b => simp at h
    | indexDoc i => rfl
    | layoutMarker => simp at h

theorem LoadIndex_root (o : OCI) (fs : Fs) : (o.LoadIndex fs).1.root = o.root := by
  unfold OCI.LoadIndex
  cases hr : fs.read (o.path [OCIImageIndexFile]) with
  | none => rfl
  | some c => cases c <;> rfl

theorem LoadIndex_nodupKeys (o : OCI) (fs : Fs) (h : o.nameMap.nodupKeys) :
    (o.LoadIndex fs).1.nameMap.nodupKeys := by
  unfold OCI.LoadIndex
  cases hr : fs.read (o.path [OCIImageIndexFile]) with
  | none => exact h
  | some c =>
    cases c with
    | blob b => exact h
    | indexDoc i => exact mergeManifests_nodupKeys i.manifests o.nameMap h
    | layoutMarker => exact h

theorem SaveIndex_ok (o : OCI) (fs : Fs)
    (h : o.path [OCIImageIndexFile] ∉ fs.failingCreate) :
    o.SaveIndex fs =
      ({ o with index := { o.index with manifests := o.nameMap.entries.map stampPair } },
       fs.setFile (o.path [OCIImageIndexFile])
         (FContent.indexDoc
           { schemaVersion := o.index.schemaVersion,
             manifests := o.nameMap.entries.map stampPair }),
       none) := by
  unfold OCI.SaveIndex
  rw [if_neg h]

theorem SaveIndex_nameMap (o : OCI) (fs : Fs) :
    (o.SaveIndex fs).1.nameMap = o.nameMap := by
  unfold OCI.SaveIndex
  by_cases h : o.path [OCIImageIndexFile] ∈ fs.failingCreate
  · rw [if_pos h]
  · rw [if_neg h]

theorem SaveIndex_root (o : OCI) (fs : Fs) : (o.SaveIndex fs).1.root = o.root := by
  unfold OCI.SaveIndex
  by_cases h : o.path [OCIImageIndexFile] ∈ fs.failingCreate
  · rw [if_pos h]
  · rw [if_neg h]

/-! ### Push characterization lemmas -/

theorem pushStep1_root_eq (p : OciPusher) (o : OCI) (fs : Fs) (d : Descriptor)
    (hcond : isManifestMedia d.mediaType = true ∧ p.digest ≠ "" ∧ p.digest = d.digest.str)
    (hr : fs.indexReadable (o.path [OCIImageIndexFile]) = true) :
    p.pushStep1 o fs d =
      ({ (o.LoadIndex fs).1 with
           nameMap := (o.LoadIndex fs).1.nameMap.store p.ref d }).SaveIndex fs := by
  unfold OciPusher.pushStep1
  rw [if_pos hcond, LoadIndex_pair o fs hr]

theorem pushStep1_nonroot_eq (p : OciPusher) (o : OCI) (fs : Fs) (d : Descriptor)
    (hcond : ¬(isManifestMedia d.mediaType = true ∧ p.digest ≠ "" ∧
               p.digest = d.digest.str)) :
    p.pushStep1 o fs d = (o, fs, none) := by
  unfold OciPusher.pushStep1
  rw [if_neg hcond]

theorem push_after_step1 (p : OciPusher) (o : OCI) (fs : Fs) (d : Descriptor)
    (o1 : OCI) (fs1 : Fs) (hps : p.pushStep1 o fs d = (o1, fs1, none)) :
    (p.Push o fs d).store = o1 ∧
    ∀ q, q ≠ o1.ensureBlob d.digest.algorithm d.digest.hex →
      (p.Push o fs d).fs.read q = fs1.read q := by
  unfold OciPusher.Push
  rw [hps]
  dsimp only
  by_cases hstat : fs1.statOk (o1.ensureBlob d.digest.algorithm d.digest.hex) = true
  · rw [if_pos hstat]
    exact ⟨rfl, fun q hq => rfl⟩
  · rw [if_neg hstat]
    by_cases hfc : o1.ensureBlob d.digest.algorithm d.digest.hex ∈ fs1.failingCreate
    · rw [if_pos hfc]
      exact ⟨rfl, fun q hq => rfl⟩
    · rw [if_neg hfc]
      exact ⟨rfl, fun q hq => Fs.read_setFile_ne fs1 _ q _ hq⟩

theorem push_root_facts (p : OciPusher) (o : OCI) (fs : Fs) (d : Descriptor)
    (hcond : isManifestMedia d.mediaType = true ∧ p.digest ≠ "" ∧ p.digest = d.digest.str)
    (hr : fs.indexReadable (o.path [OCIImageIndexFile]) = true)
    (hf : o.path [OCIImageIndexFile] ∉ fs.failingCreate) :
    (p.Push o fs d).store.nameMap = (o.LoadIndex fs).1.nameMap.store p.ref d ∧
    (p.Push o fs d).store.root = o.root ∧
    (p.Push o fs d).fs.read (o.path [OCIImageIndexFile]) =
      some (FContent.indexDoc
        { schemaVersion := (o.LoadIndex fs).1.index.schemaVersion,
          manifests :=
            ((o.LoadIndex fs).1.nameMap.store p.ref d).entries.map stampPair }) := by
  have hroot1 : (o.LoadIndex fs).1.root = o.root := LoadIndex_root o fs
  have hpath2 : OCI.path
      { (o.LoadIndex fs).1 with
          nameMap := (o.LoadIndex fs).1.nameMap.store p.ref d } [OCIImageIndexFile] =
      o.path [OCIImageIndexFile] := by
    show (o.LoadIndex fs).1.root ++ [OCIImageIndexFile] = o.root ++ [OCIImageIndexFile]
    rw [hroot1]
  have hf2 : OCI.path
      { (o.LoadIndex fs).1 with
          nameMap := (o.LoadIndex fs).1.nameMap.store p.ref d } [OCIImageIndexFile] ∉
      fs.failingCreate := by
    rw [hpath2]; exact hf
  have hsave := SaveIndex_ok
    { (o.LoadIndex fs).1 with nameMap := (o.LoadIndex fs).1.nameMap.store p.ref d }
    fs hf2
  have hps : p.pushStep1 o fs d = (_, _, none) :=
    (pushStep1_root_eq p o fs d hcond hr).trans hsave
  obtain ⟨hstore, hframe⟩ := push_after_step1 p o fs d _ _ hps
  refine ⟨?_, ?_, ?_⟩
  · rw [hstore]
  · rw [hstore]
    exact hroot1
  · rw [hframe]
    · rw [← hpath2]
      exact Fs.read_setFile_self fs _ _
    · show o.root ++ [OCIImageIndexFile] ≠ (o.LoadIndex fs).1.root ++ _
      rw [hroot1]
      exact (blobPath_ne_single o.root _ _ _).symm

theorem push_nonroot_facts (p : OciPusher) (o : OCI) (fs : Fs) (d : Descriptor)
    (hcond : ¬(isManifestMedia d.mediaType = true ∧ p.digest ≠ "" ∧
               p.digest = d.digest.str)) :
    (p.Push o fs d).store = o ∧
    (p.Push o fs d).fs.read (o.path [OCIImageIndexFile]) =
      fs.read (o.path [OCIImageIndexFile]) := by
  obtain ⟨hstore, hframe⟩ :=
    push_after_step1 p o fs d o fs (pushStep1_nonroot_eq p o fs d hcond)
  refine ⟨hstore, ?_⟩
  rw [hframe]
  show o.root ++ [OCIImageIndexFile] ≠ o.root ++ _
  exact (blobPath_ne_single o.root _ _ _).symm

theorem LoadIndex_err (o : OCI) (fs : Fs)
    (h : fs.indexReadable (o.path [OCIImageIndexFile]) = false) :
    o.LoadIndex fs = (o, some GoErr.decodeFailure) := by
  unfold Fs.indexReadable at h
  unfold OCI.LoadIndex
  cases hr : fs.read (o.path [OCIImageIndexFile]) with
  | none =>
    rw [hr] at h
    simp at h
  | some c =>
    rw [hr] at h
    cases c with
    | blob b => rfl
    | indexDoc i => simp at h
    | layoutMarker => rfl

theorem SaveIndex_fail (o : OCI) (fs : Fs)
    (h : o.path [OCIImageIndexFile] ∈ fs.failingCreate) :
    o.SaveIndex fs =
      ({ o with index := { o.index with manifests := o.nameMap.entries.map stampPair } },
       fs, some GoErr.ioFailure) := by
  unfold OCI.SaveIndex
  rw [if_pos h]

theorem push_err_of_step1_err (p : OciPusher) (o : OCI) (fs : Fs) (d : Descriptor)
    (o1 : OCI) (fs1 : Fs) (e : GoErr)
    (hps : p.pushStep1 o fs d = (o1, fs1, some e)) :
    p.Push o fs d = { writer := none, store := o1, fs := fs1, err := some e } := by
  unfold OciPusher.Push
  rw [hps]

theorem push_after_step1_present (p : OciPusher) (o : OCI) (fs : Fs) (d : Descriptor)
    (o1 : OCI) (fs1 : Fs) (hps : p.pushStep1 o fs d = (o1, fs1, none))
    (hstat : fs1.statOk (o1.ensureBlob d.digest.algorithm d.digest.hex) = true) :
    p.Push o fs d =
      { writer := some (CWriter.discard d.digest), store := o1, fs := fs1,
        err := none } := by
  unfold OciPusher.Push
  rw [hps]
  dsimp only
  rw [if_pos hstat]

/-! ### Claim theorems -/

/-- Claim C1 (code bug): re-ingesting an artifact whose blob files are already
on disk does not succeed.  A first AddOCI of a concrete artifact succeeds; the
second AddOCI of the same artifact hits the already-present manifest blob, for
which writerAt returns a nil file handle, and the Write call on that nil
handle makes AddOCI fail with os.ErrInvalid instead of being a no-op. -/
theorem c1_reingest_addOCI_fails :
    addOCIIsOk c1First = true ∧
    addOCIErr c1Second = some GoErr.invalidArgument := by
  constructor
  · decide
  · decide

/-- Claim C2 (code bug): after two Adds of different artifacts under the same
reference on a fresh store, the name resolves to the FIRST artifact's manifest
digest, not the second's — Add's LoadIndex call after nameMap.Store overwrites
the fresh entry with the persisted old descriptor before SaveIndex runs, so
the second registration never takes effect. -/
theorem c2_second_add_resolves_old :
    c2R1.err = none ∧ c2R2.err = none ∧ c2RR.err = none ∧
    c2RR.desc.digest = digestFromBytes c2Art1.manifestBytes ∧
    c2RR.desc.digest ≠ digestFromBytes c2Art2.manifestBytes := by
  refine ⟨?_, ?_, ?_, ?_, ?_⟩ <;> decide

/-- Claim C3 (code bug): on a reference absent from the name map, Resolve
returns the nil named error together with the zero descriptor, and Fetcher
returns a nil fetcher with a nil error — neither returns a NotFound error. -/
theorem c3_resolve_fetcher_miss_nil_error :
    c3RR.err = none ∧ c3RR.name = "" ∧ c3RR.desc = emptyDescriptor ∧
    c3FR.err = none ∧ c3FR.found = false := by
  refine ⟨?_, ?_, ?_, ?_, ?_⟩ <;> decide

/-- Claim C4 (code bug): on a store with two registered pairs and a visitor
that fails on the first pair, Walk stops after that single visit but returns
nil instead of surfacing the visitor's error to the caller. -/
theorem c4_walk_swallows_visitor_error :
    c4W.err = none ∧ c4W.visited = [("a", c4DescA)] := by
  constructor
  · decide
  · decide

/-- Claim C5 counterexample: a root-recognized push whose blob creation fails
returns an error, yet both the in-memory name map and the persisted index
document have already been updated — the index mutation was not the last step
and is not rolled back on failure. -/
theorem c5_push_fails_index_mutated :
    c5R.err = some GoErr.ioFailure ∧
    c5R.store.nameMap.load "hello/world:v1" = some c5Desc ∧
    c5R.fs.read ["r", OCIImageIndexFile] =
      some (FContent.indexDoc ⟨2, [stampName c5Desc "hello/world:v1"]⟩) ∧
    (NewOCI ["r"]).nameMap.load "hello/world:v1" = none := by
  refine ⟨?_, ?_, ?_, ?_⟩ <;> decide

/-- Claim C7 counterexample: after a successful Add followed by Flush, the
blob and index files are gone from disk, yet Resolve on the same store
instance still succeeds for the previously registered name, because Flush
never clears the in-memory name map — Resolve does not fail with NotFound. -/
theorem c7_resolve_after_flush_still_succeeds :
    c7R1.err = none ∧
    c7FsAfter.read ["r", OCIImageIndexFile] = none ∧
    c7FsAfter.read ["r", "blobs", "sha256", hexOfBytes c7Art.manifestBytes] = none ∧
    c7RR.err = none ∧ c7RR.name = "name:v1" := by
  refine ⟨?_, ?_, ?_, ?_, ?_⟩ <;> decide

/-- Claim C8 counterexample: a trace of OCI.Add on a one-layer artifact in
which the await of the layer writes occurs strictly before the config and
manifest writes — the claimed order (manifest and config strictly before the
layer await) is violated by OCI.Add. -/
theorem c8_ociAdd_awaits_layers_before_config :
    OCI.addTraces c8Art c8Trace ∧
    evIdx Ev.awaitLayersEv c8Trace < evIdx Ev.writeConfigEv c8Trace ∧
    evIdx Ev.awaitLayersEv c8Trace < evIdx Ev.writeManifestEv c8Trace := by
  refine ⟨⟨layerEvs c8Art, List.Perm.refl _, rfl⟩, ?_, ?_⟩ <;> decide

/-- Claim C8 amended: in OCI.Add every trace awaits the concurrently
dispatched layer writes strictly before the config and manifest writes and
persists the index as the very last event; in Layout.AddOCI every trace
writes the manifest and config strictly before the layer writes and their
await, again persisting the index last. -/
theorem c8_amended_ordering :
    (∀ (a : Artifact) (t : List Ev), OCI.addTraces a t →
       ∃ u, t = u ++ [Ev.awaitLayersEv, Ev.writeConfigEv, Ev.writeManifestEv,
                      Ev.storeNameEv, Ev.loadIndexEv, Ev.saveIndexEv] ∧
         ∀ e ∈ u, ∃ lay, e = Ev.writeLayerEv lay) ∧
    (∀ (a : Artifact) (t : List Ev), Layout.addOCITraces a t →
       ∃ u, t = Ev.writeManifestEv :: Ev.writeConfigEv ::
                (u ++ [Ev.awaitLayersEv, Ev.storeNameEv, Ev.saveIndexEv]) ∧
         ∀ e ∈ u, ∃ lay, e = Ev.writeLayerEv lay) := by
  constructor
  · intro a t ht
    obtain ⟨u, hperm, rfl⟩ := ht
    refine ⟨u, rfl, ?_⟩
    intro e he
    have : e ∈ layerEvs a := hperm.mem_iff.mp he
    rcases List.mem_map.mp this with ⟨lay, _, rfl⟩
    exact ⟨lay, rfl⟩
  · intro a t ht
    obtain ⟨u, hperm, rfl⟩ := ht
    refine ⟨u, rfl, ?_⟩
    intro e he
    have : e ∈ layerEvs a := hperm.mem_iff.mp he
    rcases List.mem_map.mp this with ⟨lay, _, rfl⟩
    exact ⟨lay, rfl⟩

/-- Claim C8 amended, witness: both parts of the amended ordering theorem
instantiated on the concrete one-layer artifact and its traces. -/
theorem c8_amended_ordering_witness :
    (∃ u, c8Trace = u ++ [Ev.awaitLayersEv, Ev.writeConfigEv, Ev.writeManifestEv,
                         Ev.storeNameEv, Ev.loadIndexEv, Ev.saveIndexEv] ∧
       ∀ e ∈ u, ∃ lay, e = Ev.writeLayerEv lay) ∧
    (∃ u, (Ev.writeManifestEv :: Ev.writeConfigEv ::
            (layerEvs c8Art ++ [Ev.awaitLayersEv, Ev.storeNameEv, Ev.saveIndexEv])) =
          Ev.writeManifestEv :: Ev.writeConfigEv ::
            (u ++ [Ev.awaitLayersEv, Ev.storeNameEv, Ev.saveIndexEv]) ∧
       ∀ e ∈ u, ∃ lay, e = Ev.writeLayerEv lay) :=
  ⟨c8_amended_ordering.1 c8Art c8Trace ⟨layerEvs c8Art, List.Perm.refl _, rfl⟩,
   c8_amended_ordering.2 c8Art _ ⟨layerEvs c8Art, List.Perm.refl _, rfl⟩⟩

/-- Claim C10: after every save of the index, the persisted document's
manifest list is exactly the in-memory name map's entries, each stamped with
its reference-name annotation; every stamped entry carries that annotation,
and any descriptor lacking the reference-name annotation (such as one merely
present in the loaded document) is absent from the persisted list. -/
theorem c10_saveIndex_exactly_name_map :
    ∀ (o : OCI) (fs : Fs),
      o.path [OCIImageIndexFile] ∉ fs.failingCreate →
      (o.SaveIndex fs).2.2 = none ∧
      (o.SaveIndex fs).2.1.read (o.path [OCIImageIndexFile]) =
        some (FContent.indexDoc
          { schemaVersion := o.index.schemaVersion,
            manifests := o.nameMap.entries.map stampPair }) ∧
      (∀ n dd, (n, dd) ∈ o.nameMap.entries →
         stampName dd n ∈ o.nameMap.entries.map stampPair ∧
         alookup AnnotationRefName (stampName dd n).annotations = some n) ∧
      (∀ d0, alookup AnnotationRefName d0.annotations = none →
         d0 ∉ o.nameMap.entries.map stampPair) := by
  intro o fs hf
  rw [SaveIndex_ok o fs hf]
  refine ⟨rfl, Fs.read_setFile_self fs _ _, ?_, ?_⟩
  · intro n dd hmem
    exact ⟨List.mem_map_of_mem stampPair hmem, lookup_stampName dd n⟩
  · intro d0 h0 hmem
    rcases List.mem_map.mp hmem with ⟨⟨n, dd⟩, _, rfl⟩
    simp only [stampPair] at h0
    rw [lookup_stampName] at h0
    exact Option.noConfusion h0

/-- Claim C10 witness: on a concrete store whose loaded document holds an
unannotated descriptor and whose name map holds one entry, SaveIndex
succeeds and the unannotated descriptor is dropped from the persisted list. -/
theorem c10_saveIndex_witness :
    c10Store.path [OCIImageIndexFile] ∉ fsEmpty.failingCreate ∧
    (c10Store.SaveIndex fsEmpty).2.2 = none ∧
    c10Plain ∉ c10Store.nameMap.entries.map stampPair :=
  ⟨by decide,
   (c10_saveIndex_exactly_name_map c10Store fsEmpty (by decide)).1,
   (c10_saveIndex_exactly_name_map c10Store fsEmpty (by decide)).2.2.2 c10Plain
     (by decide)⟩

/-- Claim C9: for every push of a descriptor whose blob file already exists at
its digest-derived path, if the push returns without error then the returned
writer is the discarding writer for the descriptor's digest, the blob path is
untouched, every commit of the discarding writer leaves the filesystem
unchanged (no bytes reach disk), and the commit succeeds exactly when the
digest of the acknowledged writes equals the descriptor's digest. -/
theorem c9_repush_existing_blob_discards :
    ∀ (p : OciPusher) (o : OCI) (fs : Fs) (d : Descriptor),
      fs.statOk (o.ensureBlob d.digest.algorithm d.digest.hex) = true →
      (p.Push o fs d).err = none →
      (p.Push o fs d).writer = some (CWriter.discard d.digest) ∧
      (p.Push o fs d).fs.read (o.ensureBlob d.digest.algorithm d.digest.hex) =
        fs.read (o.ensureBlob d.digest.algorithm d.digest.hex) ∧
      (∀ fsx written, ((CWriter.discard d.digest).commit fsx written).1 = fsx) ∧
      (∀ fsx written,
         (((CWriter.discard d.digest).commit fsx written).2 = none ↔
           digestFromBytes written = d.digest)) := by
  intro p o fs d hstat herr
  have hcommit1 : ∀ fsx written, ((CWriter.discard d.digest).commit fsx written).1 = fsx :=
    fun fsx w => rfl
  have hcommit2 : ∀ fsx written,
      (((CWriter.discard d.digest).commit fsx written).2 = none ↔
        digestFromBytes written = d.digest) := by
    intro fsx w
    unfold CWriter.commit
    by_cases h : digestFromBytes w = d.digest
    · simp [h]
    · simp [h]
  by_cases hcond : isManifestMedia d.mediaType = true ∧ p.digest ≠ "" ∧
      p.digest = d.digest.str
  · by_cases hread : fs.indexReadable (o.path [OCIImageIndexFile]) = true
    · by_cases hf : o.path [OCIImageIndexFile] ∈ fs.failingCreate
      · exfalso
        have hroot1 : (o.LoadIndex fs).1.root = o.root := LoadIndex_root o fs
        have hpath2 : OCI.path
            { (o.LoadIndex fs).1 with
                nameMap := (o.LoadIndex fs).1.nameMap.store p.ref d } [OCIImageIndexFile] =
            o.path [OCIImageIndexFile] := by
          show (o.LoadIndex fs).1.root ++ [OCIImageIndexFile] = o.root ++ [OCIImageIndexFile]
          rw [hroot1]
        have hps := (pushStep1_root_eq p o fs d hcond hread).trans
          (SaveIndex_fail
            { (o.LoadIndex fs).1 with
                nameMap := (o.LoadIndex fs).1.nameMap.store p.ref d }
            fs (by rw [hpath2]; exact hf))
        rw [push_err_of_step1_err p o fs d _ _ _ hps] at herr
        exact Option.noConfusion herr
      · have hroot1 : (o.LoadIndex fs).1.root = o.root := LoadIndex_root o fs
        have hpath2 : OCI.path
            { (o.LoadIndex fs).1 with
                nameMap := (o.LoadIndex fs).1.nameMap.store p.ref d } [OCIImageIndexFile] =
            o.path [OCIImageIndexFile] := by
          show (o.LoadIndex fs).1.root ++ [OCIImageIndexFile] = o.root ++ [OCIImageIndexFile]
          rw [hroot1]
        have hps := (pushStep1_root_eq p o fs d hcond hread).trans
          (SaveIndex_ok
            { (o.LoadIndex fs).1 with
                nameMap := (o.LoadIndex fs).1.nameMap.store p.ref d }
            fs (by rw [hpath2]; exact hf))
        have hbp : OCI.ensureBlob
            { { (o.LoadIndex fs).1 with
                  nameMap := (o.LoadIndex fs).1.nameMap.store p.ref d } with
                index := { OCI.index { (o.LoadIndex fs).1 with
                    nameMap := (o.LoadIndex fs).1.nameMap.store p.ref d } with
                  manifests :=
                    ((o.LoadIndex fs).1.nameMap.store p.ref d).entries.map stampPair } }
            d.digest.algorithm d.digest.hex =
            o.ensureBlob d.digest.algorithm d.digest.hex := by
          show (o.LoadIndex fs).1.root ++ _ = o.root ++ _
          rw [hroot1]
        have hne : o.ensureBlob d.digest.algorithm d.digest.hex ≠
            OCI.path { (o.LoadIndex fs).1 with
                nameMap := (o.LoadIndex fs).1.nameMap.store p.ref d } [OCIImageIndexFile] := by
          rw [hpath2]
          exact blobPath_ne_single o.root _ _ _
        have hstat2 : Fs.statOk
            (fs.setFile
              (OCI.path { (o.LoadIndex fs).1 with
                  nameMap := (o.LoadIndex fs).1.nameMap.store p.ref d } [OCIImageIndexFile])
              (FContent.indexDoc
                { schemaVersion := (OCI.index { (o.LoadIndex fs).1 with
                      nameMap := (o.LoadIndex fs).1.nameMap.store p.ref d }).schemaVersion,
                  manifests :=
                    ((o.LoadIndex fs).1.nameMap.store p.ref d).entries.map stampPair }))
            (OCI.ensureBlob
              { { (o.LoadIndex fs).1 with
                    nameMap := (o.LoadIndex fs).1.nameMap.store p.ref d } with
                  index := { OCI.index { (o.LoadIndex fs).1 with
                      nameMap := (o.LoadIndex fs).1.nameMap.store p.ref d } with
                    manifests :=
                      ((o.LoadIndex fs).1.nameMap.store p.ref d).entries.map stampPair } }
              d.digest.algorithm d.digest.hex) = true := by
          rw [hbp]
          unfold Fs.statOk
          rw [Fs.read_setFile_ne _ _ _ _ hne]
          exact hstat
        rw [push_after_step1_present p o fs d _ _ hps hstat2]
        refine ⟨rfl, ?_, hcommit1, hcommit2⟩
        exact Fs.read_setFile_ne _ _ _ _ hne
    · exfalso
      have hfalse : fs.indexReadable (o.path [OCIImageIndexFile]) = false := by
        rwa [Bool.not_eq_true] at hread
      have hps : p.pushStep1 o fs d = (o, fs, some GoErr.decodeFailure) := by
        unfold OciPusher.pushStep1
        rw [if_pos hcond, LoadIndex_err o fs hfalse]
      rw [push_err_of_step1_err p o fs d _ _ _ hps] at herr
      exact Option.noConfusion herr
  · have hps := pushStep1_nonroot_eq p o fs d hcond
    rw [push_after_step1_present p o fs d o fs hps hstat]
    exact ⟨rfl, rfl, hcommit1, hcommit2⟩

/-- Claim C9 witness: a concrete non-root push of a descriptor whose blob is
already on disk returns no error and yields the discarding writer. -/
theorem c9_repush_witness :
    c9Fs.statOk ((NewOCI ["r"]).ensureBlob c9Desc.digest.algorithm c9Desc.digest.hex) =
      true ∧
    (c9Pusher.Push (NewOCI ["r"]) c9Fs c9Desc).err = none ∧
    (c9Pusher.Push (NewOCI ["r"]) c9Fs c9Desc).writer =
      some (CWriter.discard c9Desc.digest) :=
  ⟨by decide, by decide,
   (c9_repush_existing_blob_discards c9Pusher (NewOCI ["r"]) c9Fs c9Desc
     (by decide) (by decide)).1⟩

theorem resolve_after_root_push (p : OciPusher) (o : OCI) (fs : Fs) (d : Descriptor)
    (hcond : isManifestMedia d.mediaType = true ∧ p.digest ≠ "" ∧ p.digest = d.digest.str)
    (hr : fs.indexReadable (o.path [OCIImageIndexFile]) = true)
    (hf : o.path [OCIImageIndexFile] ∉ fs.failingCreate)
    (hnd : o.nameMap.nodupKeys) (hrefne : p.ref ≠ "") :
    ((p.Push o fs d).store.Resolve (p.Push o fs d).fs p.ref).err = none ∧
    ((p.Push o fs d).store.Resolve (p.Push o fs d).fs p.ref).name = p.ref ∧
    ((p.Push o fs d).store.Resolve (p.Push o fs d).fs p.ref).desc =
      stampName d p.ref := by
  obtain ⟨hmap, hroot, hreadidx⟩ := push_root_facts p o fs d hcond hr hf
  have hLIread : (p.Push o fs d).fs.read
      (OCI.path (p.Push o fs d).store [OCIImageIndexFile]) =
      some (FContent.indexDoc
        { schemaVersion := (o.LoadIndex fs).1.index.schemaVersion,
          manifests :=
            ((o.LoadIndex fs).1.nameMap.store p.ref d).entries.map stampPair }) := by
    have hpath : OCI.path (p.Push o fs d).store [OCIImageIndexFile] =
        o.path [OCIImageIndexFile] := by
      show (p.Push o fs d).store.root ++ _ = o.root ++ _
      rw [hroot]
    rw [hpath]
    exact hreadidx
  have hLI := LoadIndex_indexDoc (p.Push o fs d).store (p.Push o fs d).fs _ hLIread
  have hM : NameMap.nodupKeys ((o.LoadIndex fs).1.nameMap.store p.ref d) :=
    NameMap.nodupKeys_store _ _ _ (LoadIndex_nodupKeys o fs hnd)
  have hmem : (p.ref, d) ∈ ((o.LoadIndex fs).1.nameMap.store p.ref d).entries :=
    NameMap.mem_store_self _ _ _
  have hload : (mergeManifests (p.Push o fs d).store.nameMap
      (((o.LoadIndex fs).1.nameMap.store p.ref d).entries.map stampPair)).load p.ref =
      some (stampName d p.ref) := by
    rw [hmap]
    exact merge_stamped_load _ _ p.ref d hM hmem hrefne
  unfold OCI.Resolve
  rw [hLI]
  dsimp only
  rw [hload]
  exact ⟨rfl, rfl, rfl⟩

/-- Claim C6: a push whose descriptor has a manifest or index media type and
whose digest equals the session's expected root digest registers the base
reference in the name map and persists the index, after which Resolve on the
base reference succeeds with that descriptor's digest; pushing any other
descriptor (wrong media type, no expected digest, or a digest mismatch)
leaves the name-map entry for the reference and the persisted index
untouched. -/
theorem c6_push_root_recognition :
    (∀ (p : OciPusher) (o : OCI) (fs : Fs) (d : Descriptor),
       isManifestMedia d.mediaType = true → p.digest ≠ "" → p.digest = d.digest.str →
       fs.indexReadable (o.path [OCIImageIndexFile]) = true →
       o.path [OCIImageIndexFile] ∉ fs.failingCreate →
       o.nameMap.nodupKeys → p.ref ≠ "" →
       (p.Push o fs d).store.nameMap.load p.ref = some d ∧
       (∃ i, (p.Push o fs d).fs.read (o.path [OCIImageIndexFile]) =
               some (FContent.indexDoc i) ∧ stampName d p.ref ∈ i.manifests) ∧
       ((p.Push o fs d).store.Resolve (p.Push o fs d).fs p.ref).err = none ∧
       ((p.Push o fs d).store.Resolve (p.Push o fs d).fs p.ref).name = p.ref ∧
       ((p.Push o fs d).store.Resolve (p.Push o fs d).fs p.ref).desc.digest =
         d.digest) ∧
    (∀ (p : OciPusher) (o : OCI) (fs : Fs) (d : Descriptor),
       ¬(isManifestMedia d.mediaType = true ∧ p.digest ≠ "" ∧
         p.digest = d.digest.str) →
       (p.Push o fs d).store.nameMap.load p.ref = o.nameMap.load p.ref ∧
       (p.Push o fs d).fs.read (o.path [OCIImageIndexFile]) =
         fs.read (o.path [OCIImageIndexFile])) := by
  constructor
  · intro p o fs d hm hd he hr hf hnd hrefne
    obtain ⟨hmap, hroot, hreadidx⟩ := push_root_facts p o fs d ⟨hm, hd, he⟩ hr hf
    obtain ⟨herr, hname, hdesc⟩ :=
      resolve_after_root_push p o fs d ⟨hm, hd, he⟩ hr hf hnd hrefne
    refine ⟨?_, ⟨_, hreadidx, ?_⟩, herr, hname, ?_⟩
    · rw [hmap]
      exact NameMap.load_store_self _ _ _
    · exact List.mem_map_of_mem stampPair (NameMap.mem_store_self _ _ _)
    · rw [hdesc]
      exact stampName_digest d p.ref
  · intro p o fs d hcond
    obtain ⟨hstore, hframe⟩ := push_nonroot_facts p o fs d hcond
    exact ⟨by rw [hstore], hframe⟩

/-- Claim C6 witness: a concrete root push on a fresh store registers the
reference, and a concrete non-root push (no expected digest) leaves the entry
untouched. -/
theorem c6_push_root_witness :
    isManifestMedia c6Desc.mediaType = true ∧
    c6Pusher.digest = c6Desc.digest.str ∧
    (c6Pusher.Push (NewOCI ["r"]) fsEmpty c6Desc).store.nameMap.load "w" =
      some c6Desc ∧
    (c6PusherNonroot.Push (NewOCI ["r"]) fsEmpty c6Desc).store.nameMap.load "w" =
      (NewOCI ["r"]).nameMap.load "w" :=
  ⟨by decide, by decide,
   (c6_push_root_recognition.1 c6Pusher (NewOCI ["r"]) fsEmpty c6Desc
     (by decide) (by decide) (by decide) (by decide) (by decide) (by decide)
     (by decide)).1,
   (c6_push_root_recognition.2 c6PusherNonroot (NewOCI ["r"]) fsEmpty c6Desc
     (by decide)).1⟩

theorem removeAll_read_not_under (fs : Fs) (p q : FPath) (h : pathUnder p q = false) :
    (fs.removeAll p).read q = fs.read q :=
  alookup_filter_keyTrue (fun k => !(pathUnder p k)) fs.files q (by simp [h])

theorem removeAll_read_under (fs : Fs) (p q : FPath) (h : pathUnder p q = true) :
    (fs.removeAll p).read q = none :=
  alookup_filter_keyFalse (fun k => !(pathUnder p k)) fs.files q (by simp [h])

theorem removeAll_read_none (fs : Fs) (p q : FPath) (h : fs.read q = none) :
    (fs.removeAll p).read q = none :=
  alookup_filter_none _ fs.files q h

theorem Add_success_shape (o : OCI) (fs : Fs) (a : Artifact) (ref : String)
    (hread : fs.indexReadable (o.path [OCIImageIndexFile]) = true)
    (hfail : o.path [OCIImageIndexFile] ∉ fs.failingCreate)
    (hwl : (OCI.writeLayers o fs a.layers).2 = none)
    (hwc : (OCI.writeBytes o (OCI.writeLayers o fs a.layers).1 a.rawConfig).err = none)
    (hwm : (OCI.writeBytes o
        (OCI.writeBytes o (OCI.writeLayers o fs a.layers).1 a.rawConfig).fs
        a.manifestBytes).err = none) :
    (o.Add fs a ref).err = none := by
  have hfsread : (OCI.writeBytes o
      (OCI.writeBytes o (OCI.writeLayers o fs a.layers).1 a.rawConfig).fs
      a.manifestBytes).fs.read (o.path [OCIImageIndexFile]) =
      fs.read (o.path [OCIImageIndexFile]) :=
    (writeBytes_read_single o _ a.manifestBytes OCIImageIndexFile).trans
      ((writeBytes_read_single o _ a.rawConfig OCIImageIndexFile).trans
        (writeLayers_read_single o fs a.layers OCIImageIndexFile))
  have hfsfail : (OCI.writeBytes o
      (OCI.writeBytes o (OCI.writeLayers o fs a.layers).1 a.rawConfig).fs
      a.manifestBytes).fs.failingCreate = fs.failingCreate :=
    (writeBytes_failing o _ a.manifestBytes).trans
      ((writeBytes_failing o _ a.rawConfig).trans (writeLayers_failing o fs a.layers))
  unfold OCI.Add
  rw [show OCI.writeLayers o fs a.layers = ((OCI.writeLayers o fs a.layers).1, none)
    from by rw [← hwl]]
  dsimp only
  rw [hwc]
  dsimp only
  rw [hwm]
  dsimp only
  rw [LoadIndex_pair
    { o with nameMap := o.nameMap.store ref (rootDesc a ref) }
    (OCI.writeBytes o (OCI.writeBytes o (OCI.writeLayers o fs a.layers).1 a.rawConfig).fs
      a.manifestBytes).fs
    (by
      show Fs.indexReadable _ (o.path [OCIImageIndexFile]) = true
      rw [indexReadable_eq_of_read _ fs _ hfsread]
      exact hread)]
  dsimp only
  rw [SaveIndex_ok
    (OCI.LoadIndex { o with nameMap := o.nameMap.store ref (rootDesc a ref) }
      (OCI.writeBytes o
        (OCI.writeBytes o (OCI.writeLayers o fs a.layers).1 a.rawConfig).fs
        a.manifestBytes).fs).1
    (OCI.writeBytes o (OCI.writeBytes o (OCI.writeLayers o fs a.layers).1 a.rawConfig).fs
      a.manifestBytes).fs
    (by
      have hp : OCI.path
          (OCI.LoadIndex { o with nameMap := o.nameMap.store ref (rootDesc a ref) }
            (OCI.writeBytes o
              (OCI.writeBytes o (OCI.writeLayers o fs a.layers).1 a.rawConfig).fs
              a.manifestBytes).fs).1 [OCIImageIndexFile] =
          o.path [OCIImageIndexFile] := by
        show (OCI.LoadIndex _ _).1.root ++ _ = o.root ++ _
        rw [LoadIndex_root]
      rw [hp, hfsfail]
      exact hfail)]

/-- Claim C5 amended: an ingestion (Add) that fails during the blob-writing
stage (layers, config, or manifest) leaves the store — name map included —
and the persisted index document unmodified, and when the blob stage and the
index steps all succeed Add's index mutation comes last; a push-session push
that recognizes the root, however, registers the reference and persists the
index before ensuring the blob path, so a push failing afterwards has already
mutated the index. -/
theorem c5_amended_index_mutation :
    (∀ (o : OCI) (fs : Fs) (a : Artifact) (ref : String),
       fs.indexReadable (o.path [OCIImageIndexFile]) = true →
       o.path [OCIImageIndexFile] ∉ fs.failingCreate →
       (o.Add fs a ref).err ≠ none →
       (o.Add fs a ref).store = o ∧
       (o.Add fs a ref).fs.read (o.path [OCIImageIndexFile]) =
         fs.read (o.path [OCIImageIndexFile])) ∧
    (∀ (p : OciPusher) (o : OCI) (fs : Fs) (d : Descriptor),
       isManifestMedia d.mediaType = true → p.digest ≠ "" → p.digest = d.digest.str →
       fs.indexReadable (o.path [OCIImageIndexFile]) = true →
       o.path [OCIImageIndexFile] ∉ fs.failingCreate →
       (p.Push o fs d).store.nameMap.load p.ref = some d ∧
       (∃ i, (p.Push o fs d).fs.read (o.path [OCIImageIndexFile]) =
               some (FContent.indexDoc i) ∧ stampName d p.ref ∈ i.manifests)) := by
  constructor
  · intro o fs a ref hread hfail herr
    cases hwl2 : (OCI.writeLayers o fs a.layers).2 with
    | some e =>
      unfold OCI.Add
      rw [show OCI.writeLayers o fs a.layers = ((OCI.writeLayers o fs a.layers).1, some e)
        from by rw [← hwl2]]
      exact ⟨rfl, writeLayers_read_single o fs a.layers OCIImageIndexFile⟩
    | none =>
      cases hwc2 : (OCI.writeBytes o (OCI.writeLayers o fs a.layers).1 a.rawConfig).err with
      | some e =>
        unfold OCI.Add
        rw [show OCI.writeLayers o fs a.layers = ((OCI.writeLayers o fs a.layers).1, none)
          from by rw [← hwl2]]
        dsimp only
        rw [hwc2]
        exact ⟨rfl,
          (writeBytes_read_single o _ a.rawConfig OCIImageIndexFile).trans
            (writeLayers_read_single o fs a.layers OCIImageIndexFile)⟩
      | none =>
        cases hwm2 : (OCI.writeBytes o
            (OCI.writeBytes o (OCI.writeLayers o fs a.layers).1 a.rawConfig).fs
            a.manifestBytes).err with
        | some e =>
          unfold OCI.Add
          rw [show OCI.writeLayers o fs a.layers =
              ((OCI.writeLayers o fs a.layers).1, none) from by rw [← hwl2]]
          dsimp only
          rw [hwc2]
          dsimp only
          rw [hwm2]
          exact ⟨rfl,
            (writeBytes_read_single o _ a.manifestBytes OCIImageIndexFile).trans
              ((writeBytes_read_single o _ a.rawConfig OCIImageIndexFile).trans
                (writeLayers_read_single o fs a.layers OCIImageIndexFile))⟩
        | none =>
          exact absurd (Add_success_shape o fs a ref hread hfail hwl2 hwc2 hwm2) herr
  · intro p o fs d hm hd he hr hf
    obtain ⟨hmap, hroot, hreadidx⟩ := push_root_facts p o fs d ⟨hm, hd, he⟩ hr hf
    refine ⟨?_, _, hreadidx, ?_⟩
    · rw [hmap]
      exact NameMap.load_store_self _ _ _
    · exact List.mem_map_of_mem stampPair (NameMap.mem_store_self _ _ _)

/-- Claim C5 amended, witness: a concrete Add whose config-blob creation fails
returns an error with the store unchanged, and a concrete root push on a
fresh store has the reference registered even before the blob is handled. -/
theorem c5_amended_witness :
    ((NewOCI ["r"]).Add c5aFs c5aArt "n").err ≠ none ∧
    ((NewOCI ["r"]).Add c5aFs c5aArt "n").store = NewOCI ["r"] ∧
    (c5bPusher.Push (NewOCI ["r"]) fsEmpty c5bDesc).store.nameMap.load "w2" =
      some c5bDesc :=
  ⟨by decide,
   (c5_amended_index_mutation.1 (NewOCI ["r"]) c5aFs c5aArt "n"
     (by decide) (by decide) (by decide)).1,
   (c5_amended_index_mutation.2 c5bPusher (NewOCI ["r"]) fsEmpty c5bDesc
     (by decide) (by decide) (by decide) (by decide) (by decide)).1⟩

/-- Claim C7 amended: Flush removes exactly the three paths (the blobs
subtree, index.json, and the oci-layout marker under the root) and touches no
other path; afterwards the files are absent, but the same store instance's
in-memory name map is not cleared, so Resolve for a previously registered
name still returns its descriptor with a nil error; only a freshly
constructed store over the flushed root yields no name and no descriptor —
and even that miss comes with a nil error rather than NotFound. -/
theorem c7_amended_flush_scope :
    (∀ (l : Layout) (fs : Fs) (q : FPath),
       pathUnder (l.root ++ ["blobs"]) q = false →
       pathUnder (l.root ++ [OCIImageIndexFile]) q = false →
       pathUnder (l.root ++ ["oci-layout"]) q = false →
       (l.Flush fs).1.read q = fs.read q) ∧
    (∀ (l : Layout) (fs : Fs) (q : FPath),
       (pathUnder (l.root ++ ["blobs"]) q = true ∨
        pathUnder (l.root ++ [OCIImageIndexFile]) q = true ∨
        pathUnder (l.root ++ ["oci-layout"]) q = true) →
       (l.Flush fs).1.read q = none) ∧
    (∀ (l : Layout) (fs : Fs) (n : String) (d : Descriptor),
       l.store.nameMap.load n = some d → l.store.root = l.root →
       (l.store.Resolve (l.Flush fs).1 n).name = n ∧
       (l.store.Resolve (l.Flush fs).1 n).desc = d ∧
       (l.store.Resolve (l.Flush fs).1 n).err = none) ∧
    (∀ (l : Layout) (fs : Fs) (n : String),
       ((NewOCI l.root).Resolve (l.Flush fs).1 n).name = "" ∧
       ((NewOCI l.root).Resolve (l.Flush fs).1 n).desc = emptyDescriptor ∧
       ((NewOCI l.root).Resolve (l.Flush fs).1 n).err = none) := by
  refine ⟨?_, ?_, ?_, ?_⟩
  · intro l fs q h1 h2 h3
    show (((fs.removeAll (l.root ++ ["blobs"])).removeAll
        (l.root ++ [OCIImageIndexFile])).removeAll (l.root ++ ["oci-layout"])).read q =
      fs.read q
    rw [removeAll_read_not_under _ _ _ h3, removeAll_read_not_under _ _ _ h2,
        removeAll_read_not_under _ _ _ h1]
  · intro l fs q h
    show (((fs.removeAll (l.root ++ ["blobs"])).removeAll
        (l.root ++ [OCIImageIndexFile])).removeAll (l.root ++ ["oci-layout"])).read q =
      none
    rcases h with h | h | h
    · exact removeAll_read_none _ _ _
        (removeAll_read_none _ _ _ (removeAll_read_under _ _ _ h))
    · exact removeAll_read_none _ _ _ (removeAll_read_under _ _ _ h)
    · exact removeAll_read_under _ _ _ h
  · intro l fs n d hload hroot
    have hidx : (l.Flush fs).1.read (OCI.path l.store [OCIImageIndexFile]) = none := by
      have hp : OCI.path l.store [OCIImageIndexFile] = l.root ++ [OCIImageIndexFile] := by
        show l.store.root ++ _ = _
        rw [hroot]
      rw [hp]
      show (((fs.removeAll (l.root ++ ["blobs"])).removeAll
          (l.root ++ [OCIImageIndexFile])).removeAll (l.root ++ ["oci-layout"])).read _ =
        none
      exact removeAll_read_none _ _ _ (removeAll_read_under _ _ _ (pathUnder_refl _))
    unfold OCI.Resolve
    rw [LoadIndex_none _ _ hidx]
    dsimp only
    rw [hload]
    exact ⟨rfl, rfl, rfl⟩
  · intro l fs n
    have hidx : (l.Flush fs).1.read
        (OCI.path (NewOCI l.root) [OCIImageIndexFile]) = none := by
      show (((fs.removeAll (l.root ++ ["blobs"])).removeAll
          (l.root ++ [OCIImageIndexFile])).removeAll (l.root ++ ["oci-layout"])).read
          (l.root ++ [OCIImageIndexFile]) = none
      exact removeAll_read_none _ _ _ (removeAll_read_under _ _ _ (pathUnder_refl _))
    unfold OCI.Resolve
    rw [LoadIndex_none _ _ hidx]
    exact ⟨rfl, rfl, rfl⟩

/-- Claim C7 amended, witness: flushing a concrete store leaves an unrelated
file untouched, while Resolve on the same instance still answers the
previously registered name from the retained in-memory map. -/
theorem c7_amended_witness :
    (c7SameLayout.Flush c7FrameFs).1.read ["other", "file"] =
      c7FrameFs.read ["other", "file"] ∧
    (c7SameLayout.store.Resolve (c7SameLayout.Flush c7FrameFs).1 "a").name = "a" ∧
    (c7SameLayout.store.Resolve (c7SameLayout.Flush c7FrameFs).1 "a").err = none :=
  ⟨c7_amended_flush_scope.1 c7SameLayout c7FrameFs ["other", "file"]
     (by decide) (by decide) (by decide),
   (c7_amended_flush_scope.2.2.1 c7SameLayout c7FrameFs "a" c4DescA
     (by decide) (by decide)).1,
   (c7_amended_flush_scope.2.2.1 c7SameLayout c7FrameFs "a" c4DescA
     (by decide) (by decide)).2.2⟩

end Ocil
